import Mathlib

/-!
Shallow embedding of `steppermotors.py` (class `Portescap20MO20DIU`).

The controller drives a 4-phase stepper motor through 4 digital lines
(one "nibble") of a 16-line digital I/O device.  Device interaction is
recorded as a trace of events: masked writes to the digital lines and
sleeps.  The imported device driver (`labjacku12`) and the `errors`
module are external to the source file; where their behaviour decides a
claim it is modelled from the specification and marked as such.
-/

namespace StepperMotors

/-- One observable action of a step method: a masked write of `value`
to the digital lines (only bits set in `mask` are driven), or a
real-time sleep of `seconds` seconds. -/
inductive Event where
  | write (value mask : Nat) : Event
  | sleep (seconds : ℚ) : Event
deriving Repr, DecidableEq

/-- Whether an event is a device write (as opposed to a sleep). -/
def Event.isWrite : Event → Bool
  | .write _ _ => true
  | .sleep _ => false

/-- The device writes contained in a trace, in order. -/
def writesOf (tr : List Event) : List Event := tr.filter Event.isWrite

/-- A call to the device's configure-outputs operation
(`set_DIO_to_output(Outputs, InitialValue)`): bits set in `Outputs`
become outputs and are immediately driven to the bits of `InitialValue`. -/
structure ConfigCall where
  Outputs : Nat
  InitialValue : Nat
deriving Repr, DecidableEq

/-- The state of a `Portescap20MO20DIU` instance: the attributes set by
`__init__` (`self.nibble`, `self.step_time`, `self.settle_time`,
`self.states`, `self.off`). -/
structure Portescap20MO20DIU where
  nibble : Nat
  step_time : ℚ
  settle_time : ℚ
  states : List Nat
  off : Nat
deriving Repr, DecidableEq

/-- The message of the error raised by the constructor when the device
health check fails. -/
def labjackError : String :=
  "The LabJack used to control the Portescap 20MO20DIU stepper motor is not responding."

/-- `__init__(self, nibble, step_time, settle_time)`.  `check_connection` is
the value returned by the device health probe; `power_transistors` is the
module-level polarity flag.  Returns the raised error or the constructed
instance, together with the list of configure-outputs calls made to the
device. -/
def init (check_connection : Nat) (power_transistors : String) (nibble : Nat)
    (step_time settle_time : ℚ) :
    Except String Portescap20MO20DIU × List ConfigCall :=
  if check_connection = 0 then
    (Except.error labjackError, [])
  else
    let Outputs := 0xf <<< (4 * nibble)
    let InitialValue := 0xf <<< (4 * nibble)
    if power_transistors = "ptype" then
      (Except.ok ⟨nibble, step_time, settle_time, [0x9, 0x5, 0x6, 0xa], 0xf⟩,
        [⟨Outputs, InitialValue⟩])
    else
      (Except.ok ⟨nibble, step_time, settle_time, [0x6, 0xa, 0x9, 0x5], 0x0⟩,
        [⟨Outputs, InitialValue⟩])

/-- `self.states.append(self.states.pop(0))`: rotate the phase list left
(head moves to the tail).  On the empty list `pop(0)` would fail; the
step methods below fail before reaching it in that case. -/
def rotateCW (l : List Nat) : List Nat :=
  match l with
  | [] => []
  | x :: xs => xs ++ [x]

/-- `self.states.insert(0, self.states.pop())`: rotate the phase list
right (tail moves to the head). -/
def rotateCCW (l : List Nat) : List Nat :=
  match l.getLast? with
  | none => l
  | some x => x :: l.dropLast

/-- The body of `for i in range(steps)` in `step_clockwise`: rotate the
states, write the new head masked to the nibble, sleep `step_time`.
Returns the final states list and the emitted events; fails if the
states list is empty (Python would raise `IndexError`). -/
def cwLoop (nibble : Nat) (step_time : ℚ) :
    List Nat → Nat → Option (List Nat × List Event)
  | states, 0 => some (states, [])
  | states, n + 1 => do
    let states' := rotateCW states
    let h ← states'.head?
    let (sfin, evs) ← cwLoop nibble step_time states' n
    some (sfin, Event.write (h <<< (4 * nibble)) (0xf <<< (4 * nibble))
      :: Event.sleep step_time :: evs)

/-- The body of `for i in range(steps)` in `step_counterclockwise`. -/
def ccwLoop (nibble : Nat) (step_time : ℚ) :
    List Nat → Nat → Option (List Nat × List Event)
  | states, 0 => some (states, [])
  | states, n + 1 => do
    let states' := rotateCCW states
    let h ← states'.head?
    let (sfin, evs) ← ccwLoop nibble step_time states' n
    some (sfin, Event.write (h <<< (4 * nibble)) (0xf <<< (4 * nibble))
      :: Event.sleep step_time :: evs)

/-- `step_clockwise(self, steps)`: re-assert the current phase, run the
rotation loop (Python's `range(steps)` iterates `max steps 0` times, so
`steps` is an `Int` clamped with `Int.toNat`), sleep `settle_time`, then
de-energize.  Returns the updated instance and the event trace. -/
def step_clockwise (m : Portescap20MO20DIU) (steps : Int) :
    Option (Portescap20MO20DIU × List Event) := do
  let h0 ← m.states.head?
  let (sfin, evs) ← cwLoop m.nibble m.step_time m.states steps.toNat
  some ({ m with states := sfin },
    Event.write (h0 <<< (4 * m.nibble)) (0xf <<< (4 * m.nibble))
      :: evs ++ [Event.sleep m.settle_time,
        Event.write (m.off <<< (4 * m.nibble)) (0xf <<< (4 * m.nibble))])

/-- `step_counterclockwise(self, steps)`. -/
def step_counterclockwise (m : Portescap20MO20DIU) (steps : Int) :
    Option (Portescap20MO20DIU × List Event) := do
  let h0 ← m.states.head?
  let (sfin, evs) ← ccwLoop m.nibble m.step_time m.states steps.toNat
  some ({ m with states := sfin },
    Event.write (h0 <<< (4 * m.nibble)) (0xf <<< (4 * m.nibble))
      :: evs ++ [Event.sleep m.settle_time,
        Event.write (m.off <<< (4 * m.nibble)) (0xf <<< (4 * m.nibble))])

/-- `turn_power_off(self)`: a single de-energizing write, no state change. -/
def turn_power_off (m : Portescap20MO20DIU) : List Event :=
  [Event.write (m.off <<< (4 * m.nibble)) (0xf <<< (4 * m.nibble))]

/-- Modelled from the spec: the effect of the device's masked-write
operation on the 16-line device state (the `labjacku12` driver is
imported by the source file but is not part of this repository).  For
each bit set in `mask` the output takes the corresponding bit of
`value`; bits outside the mask are unaffected. -/
def applyWrite (d value mask : Nat) : Nat :=
  (value &&& mask) ||| Nat.ldiff d mask

/-- One public step call, for reasoning about arbitrary call sequences. -/
inductive Op where
  | cw (steps : Int) : Op
  | ccw (steps : Int) : Op
deriving Repr, DecidableEq

/-- Apply one step call to an instance, keeping only the state. -/
def applyOp (m : Portescap20MO20DIU) : Op → Option Portescap20MO20DIU
  | .cw steps => (step_clockwise m steps).map Prod.fst
  | .ccw steps => (step_counterclockwise m steps).map Prod.fst

/-- Run a sequence of step calls. -/
def runOps : Portescap20MO20DIU → List Op → Option Portescap20MO20DIU
  | m, [] => some m
  | m, op :: ops => do
    let m' ← applyOp m op
    runOps m' ops

/-! ### Helper lemmas about rotation and the step loops -/

theorem rotateCW_perm (l : List Nat) : (rotateCW l).Perm l := by
  cases l with
  | nil => exact List.Perm.refl _
  | cons x xs => simp [rotateCW]

theorem rotateCCW_perm (l : List Nat) : (rotateCCW l).Perm l := by
  rcases List.eq_nil_or_concat l with rfl | ⟨l', a, rfl⟩
  · exact List.Perm.refl _
  · simp only [List.concat_eq_append, rotateCCW, List.getLast?_concat,
      List.dropLast_concat]
    exact (List.perm_append_singleton a l').symm

theorem rotateCCW_rotateCW {l : List Nat} (h : l ≠ []) :
    rotateCCW (rotateCW l) = l := by
  cases l with
  | nil => exact absurd rfl h
  | cons x xs =>
      simp [rotateCW, rotateCCW, List.getLast?_concat, List.dropLast_concat]

theorem rotateCW_rotateCCW {l : List Nat} (h : l ≠ []) :
    rotateCW (rotateCCW l) = l := by
  rcases List.eq_nil_or_concat l with rfl | ⟨l', a, rfl⟩
  · exact absurd rfl h
  · simp [List.concat_eq_append, rotateCCW, List.getLast?_concat,
      List.dropLast_concat, rotateCW]

theorem rotateCW_iterate_perm (n : Nat) (l : List Nat) :
    (rotateCW^[n] l).Perm l := by
  induction n with
  | zero => exact List.Perm.refl _
  | succ n ih =>
      rw [Function.iterate_succ_apply']
      exact (rotateCW_perm _).trans ih

theorem rotateCCW_iterate_perm (n : Nat) (l : List Nat) :
    (rotateCCW^[n] l).Perm l := by
  induction n with
  | zero => exact List.Perm.refl _
  | succ n ih =>
      rw [Function.iterate_succ_apply']
      exact (rotateCCW_perm _).trans ih

theorem rotateCW_ne_nil {l : List Nat} (h : l ≠ []) : rotateCW l ≠ [] := by
  intro hnil
  have := (rotateCW_perm l).length_eq
  rw [hnil] at this
  exact h (List.eq_nil_of_length_eq_zero this.symm)

theorem writesOf_cons_write (v mk : Nat) (tr : List Event) :
    writesOf (Event.write v mk :: tr) = Event.write v mk :: writesOf tr := by
  simp [writesOf, Event.isWrite]

theorem writesOf_cons_sleep (q : ℚ) (tr : List Event) :
    writesOf (Event.sleep q :: tr) = writesOf tr := by
  simp [writesOf, Event.isWrite]

theorem writesOf_append (tr tr' : List Event) :
    writesOf (tr ++ tr') = writesOf tr ++ writesOf tr' := by
  simp [writesOf, List.filter_append]

theorem cwLoop_spec (nib : Nat) (t : ℚ) (n : Nat) :
    ∀ (s : List Nat), s ≠ [] →
    ∃ evs, cwLoop nib t s n = some (rotateCW^[n] s, evs) ∧
      (writesOf evs).length = n ∧
      (∀ v mk, Event.write v mk ∈ evs → mk = 0xf <<< (4 * nib)) := by
  induction n with
  | zero =>
      intro s hs
      exact ⟨[], rfl, rfl, by simp⟩
  | succ n ih =>
      intro s hs
      have hs' : rotateCW s ≠ [] := by
        intro hnil
        have := (rotateCW_perm s).length_eq
        rw [hnil] at this
        exact hs (List.eq_nil_of_length_eq_zero this.symm)
      obtain ⟨h, tl, hcons⟩ := List.exists_cons_of_ne_nil hs'
      obtain ⟨evs', heq, hlen, hmask⟩ := ih (rotateCW s) hs'
      refine ⟨Event.write (h <<< (4 * nib)) (0xf <<< (4 * nib))
        :: Event.sleep t :: evs', ?_, ?_, ?_⟩
      · rw [cwLoop]
        rw [show (rotateCW s).head? = some h by rw [hcons]; rfl]
        rw [heq, Function.iterate_succ_apply]
        rfl
      · rw [writesOf_cons_write, writesOf_cons_sleep, List.length_cons, hlen]
      · intro v mk hmem
        simp only [List.mem_cons] at hmem
        rcases hmem with hmem | hmem | hmem
        · injection hmem with h1 h2
        · exact Event.noConfusion hmem
        · exact hmask v mk hmem

theorem ccwLoop_spec (nib : Nat) (t : ℚ) (n : Nat) :
    ∀ (s : List Nat), s ≠ [] →
    ∃ evs, ccwLoop nib t s n = some (rotateCCW^[n] s, evs) ∧
      (writesOf evs).length = n ∧
      (∀ v mk, Event.write v mk ∈ evs → mk = 0xf <<< (4 * nib)) := by
  induction n with
  | zero =>
      intro s hs
      exact ⟨[], rfl, rfl, by simp⟩
  | succ n ih =>
      intro s hs
      have hs' : rotateCCW s ≠ [] := by
        intro hnil
        have := (rotateCCW_perm s).length_eq
        rw [hnil] at this
        exact hs (List.eq_nil_of_length_eq_zero this.symm)
      obtain ⟨h, tl, hcons⟩ := List.exists_cons_of_ne_nil hs'
      obtain ⟨evs', heq, hlen, hmask⟩ := ih (rotateCCW s) hs'
      refine ⟨Event.write (h <<< (4 * nib)) (0xf <<< (4 * nib))
        :: Event.sleep t :: evs', ?_, ?_, ?_⟩
      · rw [ccwLoop]
        rw [show (rotateCCW s).head? = some h by rw [hcons]; rfl]
        rw [heq, Function.iterate_succ_apply]
        rfl
      · rw [writesOf_cons_write, writesOf_cons_sleep, List.length_cons, hlen]
      · intro v mk hmem
        simp only [List.mem_cons] at hmem
        rcases hmem with hmem | hmem | hmem
        · injection hmem with h1 h2
        · exact Event.noConfusion hmem
        · exact hmask v mk hmem

theorem writesOf_settle (se : ℚ) (v mk : Nat) :
    writesOf [Event.sleep se, Event.write v mk] = [Event.write v mk] := by
  simp [writesOf, Event.isWrite]

theorem writesOf_step_trace (v1 mk1 v2 mk2 : Nat) (se : ℚ) (evs : List Event) :
    writesOf ((Event.write v1 mk1 :: evs) ++ [Event.sleep se, Event.write v2 mk2]) =
      (Event.write v1 mk1 :: writesOf evs) ++ [Event.write v2 mk2] := by
  simp [writesOf, List.filter_append, Event.isWrite]

theorem step_clockwise_spec (m : Portescap20MO20DIU) (p : Nat) (rest : List Nat)
    (hm : m.states = p :: rest) (steps : Int) :
    ∃ evs, step_clockwise m steps =
        some ({ m with states := rotateCW^[steps.toNat] m.states }, evs) ∧
      (writesOf evs).length = steps.toNat + 2 ∧
      (writesOf evs).head? =
        some (Event.write (p <<< (4 * m.nibble)) (0xf <<< (4 * m.nibble))) ∧
      (writesOf evs).getLast? =
        some (Event.write (m.off <<< (4 * m.nibble)) (0xf <<< (4 * m.nibble))) ∧
      (∀ v mk, Event.write v mk ∈ evs → mk = 0xf <<< (4 * m.nibble)) := by
  have hs : m.states ≠ [] := by rw [hm]; exact List.cons_ne_nil _ _
  obtain ⟨evs', heq, hlen, hmask⟩ :=
    cwLoop_spec m.nibble m.step_time steps.toNat m.states hs
  refine ⟨Event.write (p <<< (4 * m.nibble)) (0xf <<< (4 * m.nibble))
      :: evs' ++ [Event.sleep m.settle_time,
        Event.write (m.off <<< (4 * m.nibble)) (0xf <<< (4 * m.nibble))],
    ?_, ?_, ?_, ?_, ?_⟩
  · rw [step_clockwise]
    rw [show m.states.head? = some p by rw [hm]; rfl]
    rw [heq]
    rfl
  · rw [writesOf_step_trace]
    simp [List.length_append, hlen]
  · rw [writesOf_step_trace]
    rfl
  · rw [writesOf_step_trace, List.getLast?_concat]
  · intro v mk hmem
    simp only [List.mem_append, List.mem_cons, List.not_mem_nil, or_false]
      at hmem
    rcases hmem with (hmem | hmem) | (hmem | hmem)
    · injection hmem with h1 h2
    · exact hmask v mk hmem
    · exact Event.noConfusion hmem
    · injection hmem with h1 h2

theorem step_counterclockwise_spec (m : Portescap20MO20DIU) (p : Nat)
    (rest : List Nat) (hm : m.states = p :: rest) (steps : Int) :
    ∃ evs, step_counterclockwise m steps =
        some ({ m with states := rotateCCW^[steps.toNat] m.states }, evs) ∧
      (writesOf evs).length = steps.toNat + 2 ∧
      (writesOf evs).head? =
        some (Event.write (p <<< (4 * m.nibble)) (0xf <<< (4 * m.nibble))) ∧
      (writesOf evs).getLast? =
        some (Event.write (m.off <<< (4 * m.nibble)) (0xf <<< (4 * m.nibble))) ∧
      (∀ v mk, Event.write v mk ∈ evs → mk = 0xf <<< (4 * m.nibble)) := by
  have hs : m.states ≠ [] := by rw [hm]; exact List.cons_ne_nil _ _
  obtain ⟨evs', heq, hlen, hmask⟩ :=
    ccwLoop_spec m.nibble m.step_time steps.toNat m.states hs
  refine ⟨Event.write (p <<< (4 * m.nibble)) (0xf <<< (4 * m.nibble))
      :: evs' ++ [Event.sleep m.settle_time,
        Event.write (m.off <<< (4 * m.nibble)) (0xf <<< (4 * m.nibble))],
    ?_, ?_, ?_, ?_, ?_⟩
  · rw [step_counterclockwise]
    rw [show m.states.head? = some p by rw [hm]; rfl]
    rw [heq]
    rfl
  · rw [writesOf_step_trace]
    simp [List.length_append, hlen]
  · rw [writesOf_step_trace]
    rfl
  · rw [writesOf_step_trace, List.getLast?_concat]
  · intro v mk hmem
    simp only [List.mem_append, List.mem_cons, List.not_mem_nil, or_false]
      at hmem
    rcases hmem with (hmem | hmem) | (hmem | hmem)
    · injection hmem with h1 h2
    · exact hmask v mk hmem
    · exact Event.noConfusion hmem
    · injection hmem with h1 h2

theorem init_of_ne_zero {c : Nat} (hc : c ≠ 0) (p : String) (n : Nat)
    (st se : ℚ) :
    init c p n st se =
      (if p = "ptype" then
        (Except.ok ⟨n, st, se, [0x9, 0x5, 0x6, 0xa], 0xf⟩,
          [⟨0xf <<< (4 * n), 0xf <<< (4 * n)⟩])
       else
        (Except.ok ⟨n, st, se, [0x6, 0xa, 0x9, 0x5], 0x0⟩,
          [⟨0xf <<< (4 * n), 0xf <<< (4 * n)⟩])) := by
  rw [init, if_neg hc]

theorem rotateCCW_ne_nil {l : List Nat} (h : l ≠ []) : rotateCCW l ≠ [] := by
  intro hnil
  have := (rotateCCW_perm l).length_eq
  rw [hnil] at this
  exact h (List.eq_nil_of_length_eq_zero this.symm)

theorem init_ok_inv {c : Nat} {p : String} {n : Nat} {st se : ℚ}
    {m : Portescap20MO20DIU} (h : (init c p n st se).1 = Except.ok m) :
    m = ⟨n, st, se, [0x9, 0x5, 0x6, 0xa], 0xf⟩ ∨
    m = ⟨n, st, se, [0x6, 0xa, 0x9, 0x5], 0x0⟩ := by
  by_cases hc : c = 0
  · rw [hc, init, if_pos rfl] at h
    exact Except.noConfusion h
  · rw [init_of_ne_zero hc] at h
    by_cases hp : p = "ptype"
    · rw [if_pos hp] at h
      exact Or.inl (Except.ok.inj h).symm
    · rw [if_neg hp] at h
      exact Or.inr (Except.ok.inj h).symm

theorem applyOp_spec (m : Portescap20MO20DIU) (hm : m.states ≠ []) (op : Op) :
    ∃ m', applyOp m op = some m' ∧ m'.states.Perm m.states := by
  obtain ⟨p, rest, hcons⟩ := List.exists_cons_of_ne_nil hm
  cases op with
  | cw steps =>
      obtain ⟨evs, heq, _⟩ := step_clockwise_spec m p rest hcons steps
      refine ⟨_, by rw [applyOp, heq]; rfl, ?_⟩
      exact rotateCW_iterate_perm steps.toNat m.states
  | ccw steps =>
      obtain ⟨evs, heq, _⟩ := step_counterclockwise_spec m p rest hcons steps
      refine ⟨_, by rw [applyOp, heq]; rfl, ?_⟩
      exact rotateCCW_iterate_perm steps.toNat m.states

theorem runOps_spec (ops : List Op) :
    ∀ m : Portescap20MO20DIU, m.states ≠ [] →
    ∃ m', runOps m ops = some m' ∧ m'.states.Perm m.states := by
  induction ops with
  | nil => exact fun m _ => ⟨m, rfl, List.Perm.refl _⟩
  | cons op ops ih =>
      intro m hm
      obtain ⟨m1, h1, hperm1⟩ := applyOp_spec m hm op
      have hm1 : m1.states ≠ [] := by
        intro hnil
        rw [hnil] at hperm1
        exact hm hperm1.symm.eq_nil
      obtain ⟨m', h', hperm'⟩ := ih m1 hm1
      refine ⟨m', ?_, hperm'.trans hperm1⟩
      rw [runOps, h1]
      exact h'

theorem mask_testBit (n i : Nat) (hi : i < 4 * n ∨ 4 * n + 3 < i) :
    (0xf <<< (4 * n)).testBit i = false := by
  rw [Nat.testBit_shiftLeft]
  rcases hi with hi | hi
  · have hlt : ¬ (4 * n ≤ i) := by omega
    simp [hlt]
  · have h4 : (0xf : Nat) < 2 ^ (i - 4 * n) := by
      calc (0xf : Nat) < 2 ^ 4 := by norm_num
        _ ≤ 2 ^ (i - 4 * n) := Nat.pow_le_pow_right (by norm_num) (by omega)
    simp [Nat.testBit_lt_two_pow h4]

theorem step_one_cw (m : Portescap20MO20DIU) (p : Nat) (rest : List Nat)
    (hm : m.states = p :: rest) :
    ∃ evs, step_clockwise m 1 =
        some ({ m with states := rotateCW m.states }, evs) ∧
      (writesOf evs).getLast? =
        some (Event.write (m.off <<< (4 * m.nibble)) (0xf <<< (4 * m.nibble))) := by
  obtain ⟨evs, heq, _, _, hlast, _⟩ := step_clockwise_spec m p rest hm 1
  exact ⟨evs, heq, hlast⟩

theorem step_one_ccw (m : Portescap20MO20DIU) (p : Nat) (rest : List Nat)
    (hm : m.states = p :: rest) :
    ∃ evs, step_counterclockwise m 1 =
        some ({ m with states := rotateCCW m.states }, evs) ∧
      (writesOf evs).getLast? =
        some (Event.write (m.off <<< (4 * m.nibble)) (0xf <<< (4 * m.nibble))) := by
  obtain ⟨evs, heq, _, _, hlast, _⟩ := step_counterclockwise_spec m p rest hm 1
  exact ⟨evs, heq, hlast⟩

/-! ### Claim theorems -/

/-- C1: for every integer `steps ≥ 0`, `step_clockwise(steps)` and
`step_counterclockwise(steps)` each issue exactly `steps + 2` device
writes: the first write re-asserts the current phase (the head of
`states`), and the last write is the de-energize write of `off`; with
`steps = 0` this is the assert write, zero step writes and the
de-energize write. -/
theorem C1_step_write_count (m : Portescap20MO20DIU) (steps : Int)
    (hsteps : 0 ≤ steps) (p : Nat) (rest : List Nat)
    (hm : m.states = p :: rest) :
    (∃ m1 evs1, step_clockwise m steps = some (m1, evs1) ∧
      ((writesOf evs1).length : Int) = steps + 2 ∧
      (writesOf evs1).head? =
        some (Event.write (p <<< (4 * m.nibble)) (0xf <<< (4 * m.nibble))) ∧
      (writesOf evs1).getLast? =
        some (Event.write (m.off <<< (4 * m.nibble))
          (0xf <<< (4 * m.nibble)))) ∧
    (∃ m2 evs2, step_counterclockwise m steps = some (m2, evs2) ∧
      ((writesOf evs2).length : Int) = steps + 2 ∧
      (writesOf evs2).head? =
        some (Event.write (p <<< (4 * m.nibble)) (0xf <<< (4 * m.nibble))) ∧
      (writesOf evs2).getLast? =
        some (Event.write (m.off <<< (4 * m.nibble))
          (0xf <<< (4 * m.nibble)))) := by
  obtain ⟨evs1, heq1, hlen1, hh1, hlast1, _⟩ :=
    step_clockwise_spec m p rest hm steps
  obtain ⟨evs2, heq2, hlen2, hh2, hlast2, _⟩ :=
    step_counterclockwise_spec m p rest hm steps
  exact ⟨⟨_, evs1, heq1, by rw [hlen1]; omega, hh1, hlast1⟩,
    ⟨_, evs2, heq2, by rw [hlen2]; omega, hh2, hlast2⟩⟩

/-- Witness for C1 at a freshly constructed n-type controller on nibble 0
with `steps = 0`: two writes, asserting phase `0x6` first and
de-energizing with `0x0` last. -/
theorem C1_step_write_count_witness :
    (0 : Int) ≤ 0 ∧
    (Portescap20MO20DIU.mk 0 0 0 [0x6, 0xa, 0x9, 0x5] 0x0).states =
      0x6 :: [0xa, 0x9, 0x5] ∧
    ((∃ m1 evs1, step_clockwise
        (Portescap20MO20DIU.mk 0 0 0 [0x6, 0xa, 0x9, 0x5] 0x0) 0 =
          some (m1, evs1) ∧
      ((writesOf evs1).length : Int) = 0 + 2 ∧
      (writesOf evs1).head? = some (Event.write (0x6 <<< (4 * 0))
        (0xf <<< (4 * 0))) ∧
      (writesOf evs1).getLast? = some (Event.write (0x0 <<< (4 * 0))
        (0xf <<< (4 * 0)))) ∧
    (∃ m2 evs2, step_counterclockwise
        (Portescap20MO20DIU.mk 0 0 0 [0x6, 0xa, 0x9, 0x5] 0x0) 0 =
          some (m2, evs2) ∧
      ((writesOf evs2).length : Int) = 0 + 2 ∧
      (writesOf evs2).head? = some (Event.write (0x6 <<< (4 * 0))
        (0xf <<< (4 * 0))) ∧
      (writesOf evs2).getLast? = some (Event.write (0x0 <<< (4 * 0))
        (0xf <<< (4 * 0))))) :=
  ⟨le_refl 0, rfl,
    C1_step_write_count (Portescap20MO20DIU.mk 0 0 0 [0x6, 0xa, 0x9, 0x5] 0x0)
      0 (le_refl 0) 0x6 [0xa, 0x9, 0x5] rfl⟩

/-- C2: with the polarity flag `"ntype"` construction yields
`states = [0x6, 0xa, 0x9, 0x5]` and `off = 0x0`; with `"ptype"` it
yields `states = [0x9, 0x5, 0x6, 0xa]` and `off = 0xf`. -/
theorem C2_polarity_selection (c : Nat) (hc : c ≠ 0) (n : Nat)
    (st se : ℚ) :
    (init c "ntype" n st se).1 =
      Except.ok ⟨n, st, se, [0x6, 0xa, 0x9, 0x5], 0x0⟩ ∧
    (init c "ptype" n st se).1 =
      Except.ok ⟨n, st, se, [0x9, 0x5, 0x6, 0xa], 0xf⟩ := by
  rw [init_of_ne_zero hc, init_of_ne_zero hc]
  constructor
  · rw [if_neg (by decide)]
  · rw [if_pos rfl]

/-- Witness for C2 at `check_connection = 1`, nibble 0, zero delays. -/
theorem C2_polarity_selection_witness :
    (1 : Nat) ≠ 0 ∧
    ((init 1 "ntype" 0 0 0).1 =
      Except.ok ⟨0, 0, 0, [0x6, 0xa, 0x9, 0x5], 0x0⟩ ∧
    (init 1 "ptype" 0 0 0).1 =
      Except.ok ⟨0, 0, 0, [0x9, 0x5, 0x6, 0xa], 0xf⟩) :=
  ⟨one_ne_zero, C2_polarity_selection 1 one_ne_zero 0 0 0⟩

/-- C3: from any successfully constructed controller, any sequence of
`step_clockwise` / `step_counterclockwise` calls leaves `states` a
permutation of its value at construction, in particular of length 4:
the multiset of the 4 phase values is invariant, only the order
changes. -/
theorem C3_ring_invariant (c : Nat) (p : String) (n : Nat) (st se : ℚ)
    (m0 : Portescap20MO20DIU)
    (hinit : (init c p n st se).1 = Except.ok m0) (ops : List Op) :
    ∃ m', runOps m0 ops = some m' ∧ m'.states.length = 4 ∧
      m'.states.Perm m0.states := by
  have hne : m0.states ≠ [] := by
    rcases init_ok_inv hinit with h | h <;> rw [h] <;>
      exact List.cons_ne_nil _ _
  obtain ⟨m', hrun, hperm⟩ := runOps_spec ops m0 hne
  refine ⟨m', hrun, ?_, hperm⟩
  rw [hperm.length_eq]
  rcases init_ok_inv hinit with h | h <;> rw [h] <;> rfl

/-- Witness for C3: an n-type controller on nibble 0 after a clockwise
step, two counter-clockwise steps and a clockwise batch of 3. -/
theorem C3_ring_invariant_witness :
    (init 1 "ntype" 0 0 0).1 =
      Except.ok (Portescap20MO20DIU.mk 0 0 0 [0x6, 0xa, 0x9, 0x5] 0x0) ∧
    (∃ m', runOps (Portescap20MO20DIU.mk 0 0 0 [0x6, 0xa, 0x9, 0x5] 0x0)
        [Op.cw 1, Op.ccw 2, Op.cw 3] = some m' ∧
      m'.states.length = 4 ∧
      m'.states.Perm
        (Portescap20MO20DIU.mk 0 0 0 [0x6, 0xa, 0x9, 0x5] 0x0).states) :=
  ⟨rfl, C3_ring_invariant 1 "ntype" 0 0 0
    (Portescap20MO20DIU.mk 0 0 0 [0x6, 0xa, 0x9, 0x5] 0x0) rfl
    [Op.cw 1, Op.ccw 2, Op.cw 3]⟩

/-- C5: for a freshly constructed controller with nibble 1, n-type
polarity and zero delays, `step_clockwise(4)` brings `states` back to
`[0x6, 0xa, 0x9, 0x5]` and the last device write is value
`0x0 <<< 4 = 0x00` with mask `0xf0`. -/
theorem C5_full_cycle_scenario :
    (init 1 "ntype" 1 0 0).1 =
      Except.ok (Portescap20MO20DIU.mk 1 0 0 [0x6, 0xa, 0x9, 0x5] 0x0) ∧
    (step_clockwise (Portescap20MO20DIU.mk 1 0 0 [0x6, 0xa, 0x9, 0x5] 0x0)
        4).map (fun r => (r.1.states, (writesOf r.2).getLast?)) =
      some ([0x6, 0xa, 0x9, 0x5], some (Event.write 0x00 0xf0)) := by
  constructor
  · rfl
  · decide

/-- C4: from any controller state (non-empty `states`, as guaranteed by
construction), `step_clockwise(1)` followed by `step_counterclockwise(1)`
— and vice versa — returns `states` to exactly its previous order, and
in all four calls the last device write is the de-energized pattern
`off` at the nibble's offset. -/
theorem C4_inverse_property (m : Portescap20MO20DIU) (p : Nat)
    (rest : List Nat) (hm : m.states = p :: rest) :
    (∃ m1 evs1 m2 evs2,
      step_clockwise m 1 = some (m1, evs1) ∧
      step_counterclockwise m1 1 = some (m2, evs2) ∧
      m2.states = m.states ∧
      (writesOf evs1).getLast? =
        some (Event.write (m.off <<< (4 * m.nibble))
          (0xf <<< (4 * m.nibble))) ∧
      (writesOf evs2).getLast? =
        some (Event.write (m.off <<< (4 * m.nibble))
          (0xf <<< (4 * m.nibble)))) ∧
    (∃ m3 evs3 m4 evs4,
      step_counterclockwise m 1 = some (m3, evs3) ∧
      step_clockwise m3 1 = some (m4, evs4) ∧
      m4.states = m.states ∧
      (writesOf evs3).getLast? =
        some (Event.write (m.off <<< (4 * m.nibble))
          (0xf <<< (4 * m.nibble))) ∧
      (writesOf evs4).getLast? =
        some (Event.write (m.off <<< (4 * m.nibble))
          (0xf <<< (4 * m.nibble)))) := by
  have hne : m.states ≠ [] := by rw [hm]; exact List.cons_ne_nil _ _
  constructor
  · obtain ⟨evs1, heq1, hlast1⟩ := step_one_cw m p rest hm
    have h1ne : rotateCW m.states ≠ [] := rotateCW_ne_nil hne
    obtain ⟨q, qrest, hq⟩ := List.exists_cons_of_ne_nil h1ne
    obtain ⟨evs2, heq2, hlast2⟩ :=
      step_one_ccw { m with states := rotateCW m.states } q qrest hq
    refine ⟨_, evs1, _, evs2, heq1, heq2, ?_, hlast1, hlast2⟩
    exact rotateCCW_rotateCW hne
  · obtain ⟨evs3, heq3, hlast3⟩ := step_one_ccw m p rest hm
    have h3ne : rotateCCW m.states ≠ [] := rotateCCW_ne_nil hne
    obtain ⟨q, qrest, hq⟩ := List.exists_cons_of_ne_nil h3ne
    obtain ⟨evs4, heq4, hlast4⟩ :=
      step_one_cw { m with states := rotateCCW m.states } q qrest hq
    refine ⟨_, evs3, _, evs4, heq3, heq4, ?_, hlast3, hlast4⟩
    exact rotateCW_rotateCCW hne

/-- Witness for C4 at an n-type controller on nibble 1. -/
theorem C4_inverse_property_witness :
    (Portescap20MO20DIU.mk 1 0 0 [0x6, 0xa, 0x9, 0x5] 0x0).states =
      0x6 :: [0xa, 0x9, 0x5] ∧
    ((∃ m1 evs1 m2 evs2,
      step_clockwise (Portescap20MO20DIU.mk 1 0 0 [0x6, 0xa, 0x9, 0x5] 0x0)
          1 = some (m1, evs1) ∧
      step_counterclockwise m1 1 = some (m2, evs2) ∧
      m2.states =
        (Portescap20MO20DIU.mk 1 0 0 [0x6, 0xa, 0x9, 0x5] 0x0).states ∧
      (writesOf evs1).getLast? = some (Event.write (0x0 <<< (4 * 1))
        (0xf <<< (4 * 1))) ∧
      (writesOf evs2).getLast? = some (Event.write (0x0 <<< (4 * 1))
        (0xf <<< (4 * 1)))) ∧
    (∃ m3 evs3 m4 evs4,
      step_counterclockwise
          (Portescap20MO20DIU.mk 1 0 0 [0x6, 0xa, 0x9, 0x5] 0x0) 1 =
        some (m3, evs3) ∧
      step_clockwise m3 1 = some (m4, evs4) ∧
      m4.states =
        (Portescap20MO20DIU.mk 1 0 0 [0x6, 0xa, 0x9, 0x5] 0x0).states ∧
      (writesOf evs3).getLast? = some (Event.write (0x0 <<< (4 * 1))
        (0xf <<< (4 * 1))) ∧
      (writesOf evs4).getLast? = some (Event.write (0x0 <<< (4 * 1))
        (0xf <<< (4 * 1))))) :=
  ⟨rfl, C4_inverse_property
    (Portescap20MO20DIU.mk 1 0 0 [0x6, 0xa, 0x9, 0x5] 0x0)
    0x6 [0xa, 0x9, 0x5] rfl⟩

/-- C6: every device write issued by `step_clockwise`,
`step_counterclockwise` or `turn_power_off` of a controller at nibble
`n` carries mask `0xf <<< (4 * n)`, and under the (spec-modelled)
masked-write semantics of the device such a write leaves every device
bit outside positions `[4n, 4n+3]` unchanged. -/
theorem C6_masking_isolation (m : Portescap20MO20DIU) (steps : Int)
    (evs : List Event) (v mk d i : Nat)
    (hevs : (∃ m1, step_clockwise m steps = some (m1, evs)) ∨
            (∃ m1, step_counterclockwise m steps = some (m1, evs)) ∨
            evs = turn_power_off m)
    (hw : Event.write v mk ∈ evs)
    (hi : i < 4 * m.nibble ∨ 4 * m.nibble + 3 < i) :
    mk = 0xf <<< (4 * m.nibble) ∧
    (applyWrite d v mk).testBit i = d.testBit i := by
  have hmk : mk = 0xf <<< (4 * m.nibble) := by
    rcases hevs with ⟨m1, heq⟩ | ⟨m1, heq⟩ | heq
    · have hne : m.states ≠ [] := by
        intro hnil
        rw [step_clockwise, hnil] at heq
        simp at heq
      obtain ⟨p, rest, hcons⟩ := List.exists_cons_of_ne_nil hne
      obtain ⟨evs', heq', _, _, _, hmask⟩ :=
        step_clockwise_spec m p rest hcons steps
      rw [heq'] at heq
      injection heq with heq
      injection heq with h1 h2
      rw [← h2] at hw
      exact hmask v mk hw
    · have hne : m.states ≠ [] := by
        intro hnil
        rw [step_counterclockwise, hnil] at heq
        simp at heq
      obtain ⟨p, rest, hcons⟩ := List.exists_cons_of_ne_nil hne
      obtain ⟨evs', heq', _, _, _, hmask⟩ :=
        step_counterclockwise_spec m p rest hcons steps
      rw [heq'] at heq
      injection heq with heq
      injection heq with h1 h2
      rw [← h2] at hw
      exact hmask v mk hw
    · rw [heq] at hw
      simp only [turn_power_off, List.mem_singleton] at hw
      injection hw with h1 h2
  subst hmk
  refine ⟨rfl, ?_⟩
  have hfalse := mask_testBit m.nibble i hi
  simp [applyWrite, Nat.testBit_or, Nat.testBit_and, Nat.testBit_ldiff,
    hfalse]

/-- Witness for C6: the assert write of `step_clockwise(0)` on nibble 0
carries mask `0xf` and leaves bit 4 of device state `0x10` unchanged. -/
theorem C6_masking_isolation_witness :
    ((∃ m1, step_clockwise
        (Portescap20MO20DIU.mk 0 0 0 [0x6, 0xa, 0x9, 0x5] 0x0) 0 =
          some (m1, [Event.write 0x6 0xf, Event.sleep 0,
            Event.write 0x0 0xf])) ∨
      (∃ m1, step_counterclockwise
        (Portescap20MO20DIU.mk 0 0 0 [0x6, 0xa, 0x9, 0x5] 0x0) 0 =
          some (m1, [Event.write 0x6 0xf, Event.sleep 0,
            Event.write 0x0 0xf])) ∨
      [Event.write 0x6 0xf, Event.sleep 0, Event.write 0x0 0xf] =
        turn_power_off
          (Portescap20MO20DIU.mk 0 0 0 [0x6, 0xa, 0x9, 0x5] 0x0)) ∧
    Event.write 0x6 0xf ∈
      [Event.write 0x6 0xf, Event.sleep 0, Event.write 0x0 0xf] ∧
    ((4 : Nat) < 4 * 0 ∨ 4 * 0 + 3 < 4) ∧
    (0xf = 0xf <<< (4 * 0) ∧
      (applyWrite 0x10 0x6 0xf).testBit 4 = Nat.testBit 0x10 4) :=
  ⟨Or.inl ⟨Portescap20MO20DIU.mk 0 0 0 [0x6, 0xa, 0x9, 0x5] 0x0,
      by decide⟩,
    by decide, Or.inr (by decide),
    C6_masking_isolation
      (Portescap20MO20DIU.mk 0 0 0 [0x6, 0xa, 0x9, 0x5] 0x0) 0
      [Event.write 0x6 0xf, Event.sleep 0, Event.write 0x0 0xf]
      0x6 0xf 0x10 4
      (Or.inl ⟨Portescap20MO20DIU.mk 0 0 0 [0x6, 0xa, 0x9, 0x5] 0x0,
        by decide⟩)
      (by decide) (Or.inr (by decide))⟩

/-- C7: if the health check returns zero the constructor raises the
device-unreachable error and makes no configure-outputs call (the
controller does not exist); if it is non-zero construction succeeds,
and no step call on the constructed controller can fail. -/
theorem C7_unreachable_error (c : Nat) (p : String) (n : Nat)
    (st se : ℚ) :
    (c = 0 → init c p n st se = (Except.error labjackError, [])) ∧
    (c ≠ 0 → ∃ m, (init c p n st se).1 = Except.ok m ∧
      ∀ steps : Int, step_clockwise m steps ≠ none ∧
        step_counterclockwise m steps ≠ none) := by
  constructor
  · intro hc
    rw [hc, init, if_pos rfl]
  · intro hc
    rw [init_of_ne_zero hc]
    by_cases hp : p = "ptype"
    · rw [if_pos hp]
      refine ⟨⟨n, st, se, [0x9, 0x5, 0x6, 0xa], 0xf⟩, rfl, fun steps =>
        ⟨?_, ?_⟩⟩
      · obtain ⟨evs, heq, _⟩ := step_clockwise_spec
          ⟨n, st, se, [0x9, 0x5, 0x6, 0xa], 0xf⟩ 0x9 [0x5, 0x6, 0xa]
          rfl steps
        rw [heq]
        exact Option.some_ne_none _
      · obtain ⟨evs, heq, _⟩ := step_counterclockwise_spec
          ⟨n, st, se, [0x9, 0x5, 0x6, 0xa], 0xf⟩ 0x9 [0x5, 0x6, 0xa]
          rfl steps
        rw [heq]
        exact Option.some_ne_none _
    · rw [if_neg hp]
      refine ⟨⟨n, st, se, [0x6, 0xa, 0x9, 0x5], 0x0⟩, rfl, fun steps =>
        ⟨?_, ?_⟩⟩
      · obtain ⟨evs, heq, _⟩ := step_clockwise_spec
          ⟨n, st, se, [0x6, 0xa, 0x9, 0x5], 0x0⟩ 0x6 [0xa, 0x9, 0x5]
          rfl steps
        rw [heq]
        exact Option.some_ne_none _
      · obtain ⟨evs, heq, _⟩ := step_counterclockwise_spec
          ⟨n, st, se, [0x6, 0xa, 0x9, 0x5], 0x0⟩ 0x6 [0xa, 0x9, 0x5]
          rfl steps
        rw [heq]
        exact Option.some_ne_none _

/-- Witness for C7: a failed probe at construction (`c = 0`) and a
successful construction (`c = 3`). -/
theorem C7_unreachable_error_witness :
    (init 0 "ntype" 0 0 0 = (Except.error labjackError, [])) ∧
    (∃ m, (init 3 "ntype" 0 0 0).1 = Except.ok m ∧
      ∀ steps : Int, step_clockwise m steps ≠ none ∧
        step_counterclockwise m steps ≠ none) :=
  ⟨(C7_unreachable_error 0 "ntype" 0 0 0).1 rfl,
   (C7_unreachable_error 3 "ntype" 0 0 0).2 (by decide)⟩

/-- C8 counterexample: constructing with the default n-type polarity at
nibble 0 makes the configure-outputs call with `InitialValue = 0xf`,
while the constructed controller's off pattern at the nibble's offset
is `0x0 <<< (4 * 0) = 0x0`; the initial value is therefore not the
de-energized pattern, refuting the claim's final conjunct. -/
theorem C8_counterexample :
    (init 1 "ntype" 0 0 0).2 = [ConfigCall.mk 0xf 0xf] ∧
    (init 1 "ntype" 0 0 0).1 =
      Except.ok (Portescap20MO20DIU.mk 0 0 0 [0x6, 0xa, 0x9, 0x5] 0x0) ∧
    (0xf : Nat) ≠ 0x0 <<< (4 * 0) := by
  refine ⟨rfl, rfl, by decide⟩

/-- C8 (amended): on successful construction with nibble `n` the
controller makes exactly one configure-outputs call, with
`Outputs = 0xf <<< (4 * n)` and `InitialValue` equal to that same mask
(all 4 lines driven high); this initial value equals the controller's
off pattern at the nibble's offset when the polarity is p-type, while
for any other polarity the off pattern is `0x0`, so the lines start
fully energized rather than de-energized. -/
theorem C8_configure_call (c : Nat) (p : String) (n : Nat) (st se : ℚ)
    (m : Portescap20MO20DIU) (hc : c ≠ 0)
    (hm : (init c p n st se).1 = Except.ok m) :
    (init c p n st se).2 =
      [ConfigCall.mk (0xf <<< (4 * n)) (0xf <<< (4 * n))] ∧
    (p = "ptype" → m.off <<< (4 * m.nibble) = 0xf <<< (4 * n)) ∧
    (p ≠ "ptype" → m.off = 0x0) := by
  rw [init_of_ne_zero hc] at hm ⊢
  by_cases hp : p = "ptype"
  · rw [if_pos hp] at hm ⊢
    have hm2 : m = ⟨n, st, se, [0x9, 0x5, 0x6, 0xa], 0xf⟩ :=
      (Except.ok.inj hm).symm
    subst hm2
    exact ⟨rfl, fun _ => rfl, fun h => absurd hp h⟩
  · rw [if_neg hp] at hm ⊢
    have hm2 : m = ⟨n, st, se, [0x6, 0xa, 0x9, 0x5], 0x0⟩ :=
      (Except.ok.inj hm).symm
    subst hm2
    exact ⟨rfl, fun h => absurd h hp, fun _ => rfl⟩

/-- Witness for the amended C8 at a p-type construction on nibble 2. -/
theorem C8_configure_call_witness :
    (1 : Nat) ≠ 0 ∧
    (init 1 "ptype" 2 0 0).1 =
      Except.ok (Portescap20MO20DIU.mk 2 0 0 [0x9, 0x5, 0x6, 0xa] 0xf) ∧
    ((init 1 "ptype" 2 0 0).2 =
      [ConfigCall.mk (0xf <<< (4 * 2)) (0xf <<< (4 * 2))] ∧
    ("ptype" = "ptype" →
      (Portescap20MO20DIU.mk 2 0 0 [0x9, 0x5, 0x6, 0xa] 0xf).off <<<
        (4 * (Portescap20MO20DIU.mk 2 0 0 [0x9, 0x5, 0x6, 0xa] 0xf).nibble) =
        0xf <<< (4 * 2)) ∧
    ("ptype" ≠ "ptype" →
      (Portescap20MO20DIU.mk 2 0 0 [0x9, 0x5, 0x6, 0xa] 0xf).off = 0x0)) :=
  ⟨one_ne_zero, rfl,
    C8_configure_call 1 "ptype" 2 0 0
      (Portescap20MO20DIU.mk 2 0 0 [0x9, 0x5, 0x6, 0xa] 0xf)
      one_ne_zero rfl⟩

/-- C9: for every `steps < 0`, `step_clockwise` and
`step_counterclockwise` behave exactly as with `steps = 0`: the loop
runs zero times, `states` is unchanged, exactly 2 device writes occur,
and no failure occurs. -/
theorem C9_negative_steps (m : Portescap20MO20DIU) (steps : Int)
    (hneg : steps < 0) :
    step_clockwise m steps = step_clockwise m 0 ∧
    step_counterclockwise m steps = step_counterclockwise m 0 ∧
    (m.states ≠ [] → ∃ evs1 evs2,
      step_clockwise m steps = some (m, evs1) ∧
      (writesOf evs1).length = 2 ∧
      step_counterclockwise m steps = some (m, evs2) ∧
      (writesOf evs2).length = 2) := by
  have h0 : steps.toNat = (0 : Int).toNat := by omega
  refine ⟨?_, ?_, ?_⟩
  · rw [step_clockwise, step_clockwise, h0]
  · rw [step_counterclockwise, step_counterclockwise, h0]
  · intro hne
    obtain ⟨p, rest, hcons⟩ := List.exists_cons_of_ne_nil hne
    obtain ⟨evs1, heq1, hl1, _, _, _⟩ :=
      step_clockwise_spec m p rest hcons steps
    obtain ⟨evs2, heq2, hl2, _, _, _⟩ :=
      step_counterclockwise_spec m p rest hcons steps
    have ht : steps.toNat = 0 := by omega
    refine ⟨evs1, evs2, ?_, ?_, ?_, ?_⟩
    · rw [heq1, ht]
      rfl
    · rw [hl1, ht]
    · rw [heq2, ht]
      rfl
    · rw [hl2, ht]

/-- Witness for C9 at `steps = -3` on an n-type controller. -/
theorem C9_negative_steps_witness :
    (-3 : Int) < 0 ∧
    (step_clockwise (Portescap20MO20DIU.mk 0 0 0 [0x6, 0xa, 0x9, 0x5] 0x0)
        (-3) =
      step_clockwise (Portescap20MO20DIU.mk 0 0 0 [0x6, 0xa, 0x9, 0x5] 0x0)
        0 ∧
    step_counterclockwise
        (Portescap20MO20DIU.mk 0 0 0 [0x6, 0xa, 0x9, 0x5] 0x0) (-3) =
      step_counterclockwise
        (Portescap20MO20DIU.mk 0 0 0 [0x6, 0xa, 0x9, 0x5] 0x0) 0 ∧
    ((Portescap20MO20DIU.mk 0 0 0 [0x6, 0xa, 0x9, 0x5] 0x0).states ≠ [] →
      ∃ evs1 evs2,
        step_clockwise
            (Portescap20MO20DIU.mk 0 0 0 [0x6, 0xa, 0x9, 0x5] 0x0) (-3) =
          some (Portescap20MO20DIU.mk 0 0 0 [0x6, 0xa, 0x9, 0x5] 0x0,
            evs1) ∧
        (writesOf evs1).length = 2 ∧
        step_counterclockwise
            (Portescap20MO20DIU.mk 0 0 0 [0x6, 0xa, 0x9, 0x5] 0x0) (-3) =
          some (Portescap20MO20DIU.mk 0 0 0 [0x6, 0xa, 0x9, 0x5] 0x0,
            evs2) ∧
        (writesOf evs2).length = 2)) :=
  ⟨by decide,
    C9_negative_steps (Portescap20MO20DIU.mk 0 0 0 [0x6, 0xa, 0x9, 0x5] 0x0)
      (-3) (by decide)⟩

/-- C10: polarity selection branches only on equality of the module
flag with the string `"ptype"`: for every other value of the flag the
constructor silently selects the n-type configuration
(`states = [0x6, 0xa, 0x9, 0x5]`, `off = 0x0`) with no validation
error. -/
theorem C10_polarity_default (p : String) (hp : p ≠ "ptype") (c : Nat)
    (hc : c ≠ 0) (n : Nat) (st se : ℚ) :
    init c p n st se =
      (Except.ok ⟨n, st, se, [0x6, 0xa, 0x9, 0x5], 0x0⟩,
        [ConfigCall.mk (0xf <<< (4 * n)) (0xf <<< (4 * n))]) := by
  rw [init_of_ne_zero hc, if_neg hp]

/-- Witness for C10 at the misspelled flag value `"Ptype"`. -/
theorem C10_polarity_default_witness :
    ("Ptype" : String) ≠ "ptype" ∧ (1 : Nat) ≠ 0 ∧
    init 1 "Ptype" 0 0 0 =
      (Except.ok ⟨0, 0, 0, [0x6, 0xa, 0x9, 0x5], 0x0⟩,
        [ConfigCall.mk (0xf <<< (4 * 0)) (0xf <<< (4 * 0))]) :=
  ⟨by decide, one_ne_zero,
    C10_polarity_default "Ptype" (by decide) 1 one_ne_zero 0 0 0⟩

end StepperMotors
